import Mathlib

/-!
Verification of the bounding-box computation in `src/algorithm/boundingbox.rs`
(`get_bbox` over a `LineString` of points).

Coordinates are modelled as an extended type `Coord`: finite values are exact
rationals (the claims under scrutiny all restrict inputs to finite, non-NaN
coordinates, and the spec declares NaN behaviour unspecified), together with
the two infinities `T::neg_infinity()` / `T::infinity()` that the Rust code
uses to seed its running extrema.  On this NaN-free domain the boolean
comparisons `blt` / `ble` agree with IEEE `<` / `<=`.
-/

/-- Extended coordinate values: finite rationals plus the two infinities the
algorithm seeds its accumulators with.  NaN is excluded, matching the spec's
stipulation that NaN inputs are unspecified. -/
inductive Coord where
  | negInf : Coord
  | fin : ℚ → Coord
  | posInf : Coord
  deriving DecidableEq, Repr

/-- Strict `<` on NaN-free extended values, as IEEE comparison orders them. -/
def Coord.blt : Coord → Coord → Bool
  | .negInf, .negInf => false
  | .negInf, .fin _ => true
  | .negInf, .posInf => true
  | .fin _, .negInf => false
  | .fin a, .fin b => decide (a < b)
  | .fin _, .posInf => true
  | .posInf, _ => false

/-- Non-strict `<=` on NaN-free extended values. -/
def Coord.ble : Coord → Coord → Bool
  | .negInf, _ => true
  | .fin _, .negInf => false
  | .fin a, .fin b => decide (a ≤ b)
  | .fin _, .posInf => true
  | .posInf, .posInf => true
  | .posInf, _ => false

/-- The larger of two extended values (mathematical maximum). -/
def Coord.maxE (a b : Coord) : Coord := if a.blt b then b else a

/-- Whether a value is finite (a real coordinate rather than an infinity). -/
def Coord.isFin : Coord → Bool
  | .fin _ => true
  | _ => false

/-- Translate a value by a finite offset; the infinities absorb the offset,
as IEEE addition of a finite number to an infinity does. -/
def Coord.shift (d : ℚ) : Coord → Coord
  | .negInf => .negInf
  | .fin q => .fin (q + d)
  | .posInf => .posInf

/-- `types::Point`: a pair of coordinates with `x()` / `y()` accessors
(spec §3: "a pair of floating-point coordinates (x, y)"). -/
structure Point where
  x : Coord
  y : Coord
  deriving DecidableEq, Repr

/-- `types::LineString`: an ordered sequence of points (spec §3). -/
abbrev LineString := List Point

/-- `types::Bbox`: the four min/max fields of an axis-aligned rectangle
(spec §3). -/
structure Bbox where
  xmin : Coord
  xmax : Coord
  ymin : Coord
  ymax : Coord
  deriving DecidableEq, Repr

/-- One per-axis update of the running extrema, exactly the Rust block
`if v > vmax { vmax = v } else if v < vmin { vmin = v }`:
note the `else`, which skips the min test whenever the max was updated.
Returns the pair `(vmax, vmin)` after the update. -/
def stepMinMax (vmax vmin v : Coord) : Coord × Coord :=
  if vmax.blt v then (v, vmin)
  else if v.blt vmin then (vmax, v)
  else (vmax, vmin)

/-- The `for pnt in vect.iter()` loop of `get_bbox`, carrying the four
mutable accumulators `(xmax, xmin, ymax, ymin)`. -/
def bboxLoop (xmax xmin ymax ymin : Coord) : List Point → Coord × Coord × Coord × Coord
  | [] => (xmax, xmin, ymax, ymin)
  | p :: ps =>
    let xp := stepMinMax xmax xmin p.x
    let yp := stepMinMax ymax ymin p.y
    bboxLoop xp.1 xp.2 yp.1 yp.2 ps

/-- `get_bbox` from `src/algorithm/boundingbox.rs`: empty input gives `None`,
a single point gives the degenerate box, otherwise the loop runs over the
whole sequence from the infinite seeds. -/
def get_bbox (line : LineString) : Option Bbox :=
  match line with
  | [] => none
  | [p] => some { xmin := p.x, ymax := p.y, xmax := p.x, ymin := p.y }
  | p :: q :: rest =>
    let r := bboxLoop Coord.negInf Coord.posInf Coord.negInf Coord.posInf (p :: q :: rest)
    some { xmin := r.2.1, ymax := r.2.2.1, xmax := r.1, ymin := r.2.2.2 }

/-- One loop iteration as a fold step on the accumulator 4-tuple, used to
state that the loop is a single linear pass. -/
def bboxStep (acc : Coord × Coord × Coord × Coord) (p : Point) : Coord × Coord × Coord × Coord :=
  let xp := stepMinMax acc.1 acc.2.1 p.x
  let yp := stepMinMax acc.2.2.1 acc.2.2.2 p.y
  (xp.1, xp.2, yp.1, yp.2)

/-- The four corner points of a box, in the order
(xmin,ymin), (xmin,ymax), (xmax,ymin), (xmax,ymax). -/
def corners (b : Bbox) : LineString :=
  [⟨b.xmin, b.ymin⟩, ⟨b.xmin, b.ymax⟩, ⟨b.xmax, b.ymin⟩, ⟨b.xmax, b.ymax⟩]

/-- Translate a point by the finite offset `(dx, dy)`. -/
def translatePt (dx dy : ℚ) (p : Point) : Point := ⟨p.x.shift dx, p.y.shift dy⟩

/-- Translate a box by the finite offset `(dx, dy)`. -/
def Bbox.translate (dx dy : ℚ) (b : Bbox) : Bbox :=
  ⟨b.xmin.shift dx, b.xmax.shift dx, b.ymin.shift dy, b.ymax.shift dy⟩

/-- All coordinates in the sequence are finite (non-NaN, non-infinite). -/
def allFinite (l : LineString) : Prop :=
  ∀ p ∈ l, p.x.isFin = true ∧ p.y.isFin = true

instance (l : LineString) : Decidable (allFinite l) :=
  List.decidableBAll _ l

/-- The mathematical maximum of `f` over the non-empty sequence `p :: ps`. -/
def maxCoord (f : Point → Coord) (p : Point) (ps : List Point) : Coord :=
  ps.foldl (fun m q => Coord.maxE m (f q)) (f p)

/-! ### Helper lemmas -/

lemma bboxLoop_cons (xa xi ya yi : Coord) (p : Point) (ps : List Point) :
    bboxLoop xa xi ya yi (p :: ps) =
      bboxLoop (stepMinMax xa xi p.x).1 (stepMinMax xa xi p.x).2
        (stepMinMax ya yi p.y).1 (stepMinMax ya yi p.y).2 ps := rfl

lemma stepMinMax_fst (vmax vmin v : Coord) :
    (stepMinMax vmax vmin v).1 = vmax.maxE v := by
  by_cases h : vmax.blt v = true
  · simp [stepMinMax, Coord.maxE, h]
  · by_cases h2 : v.blt vmin = true <;> simp [stepMinMax, Coord.maxE, h, h2]

lemma maxE_negInf (a : Coord) : Coord.maxE Coord.negInf a = a := by
  cases a <;> rfl

lemma bboxLoop_fst (l : List Point) :
    ∀ xa xi ya yi : Coord,
      (bboxLoop xa xi ya yi l).1 = l.foldl (fun m q => Coord.maxE m q.x) xa := by
  induction l with
  | nil => intro xa xi ya yi; rfl
  | cons p ps ih =>
    intro xa xi ya yi
    rw [bboxLoop_cons, ih, List.foldl_cons, stepMinMax_fst]

lemma bboxLoop_ymax (l : List Point) :
    ∀ xa xi ya yi : Coord,
      (bboxLoop xa xi ya yi l).2.2.1 = l.foldl (fun m q => Coord.maxE m q.y) ya := by
  induction l with
  | nil => intro xa xi ya yi; rfl
  | cons p ps ih =>
    intro xa xi ya yi
    rw [bboxLoop_cons, ih, List.foldl_cons, stepMinMax_fst]

lemma blt_shift (d : ℚ) (a b : Coord) :
    (a.shift d).blt (b.shift d) = a.blt b := by
  cases a <;> cases b <;> simp [Coord.shift, Coord.blt]

lemma stepMinMax_shift (d : ℚ) (vmax vmin v : Coord) :
    stepMinMax (vmax.shift d) (vmin.shift d) (v.shift d) =
      ((stepMinMax vmax vmin v).1.shift d, (stepMinMax vmax vmin v).2.shift d) := by
  unfold stepMinMax
  rw [blt_shift, blt_shift]
  by_cases h1 : vmax.blt v = true
  · simp [h1]
  · by_cases h2 : v.blt vmin = true <;> simp [h1, h2]

lemma bboxLoop_shift (dx dy : ℚ) (l : List Point) :
    ∀ xa xi ya yi : Coord,
      bboxLoop (xa.shift dx) (xi.shift dx) (ya.shift dy) (yi.shift dy)
          (l.map (translatePt dx dy)) =
        ((bboxLoop xa xi ya yi l).1.shift dx,
         (bboxLoop xa xi ya yi l).2.1.shift dx,
         (bboxLoop xa xi ya yi l).2.2.1.shift dy,
         (bboxLoop xa xi ya yi l).2.2.2.shift dy) := by
  induction l with
  | nil => intro xa xi ya yi; rfl
  | cons p ps ih =>
    intro xa xi ya yi
    rw [List.map_cons, bboxLoop_cons, bboxLoop_cons]
    have hx : stepMinMax (xa.shift dx) (xi.shift dx) (translatePt dx dy p).x =
        ((stepMinMax xa xi p.x).1.shift dx, (stepMinMax xa xi p.x).2.shift dx) :=
      stepMinMax_shift dx xa xi p.x
    have hy : stepMinMax (ya.shift dy) (yi.shift dy) (translatePt dx dy p).y =
        ((stepMinMax ya yi p.y).1.shift dy, (stepMinMax ya yi p.y).2.shift dy) :=
      stepMinMax_shift dy ya yi p.y
    rw [hx, hy]
    exact ih _ _ _ _

/-! ### Claims -/

/-- Claim C1 (code bug witness): on the function's own doc example
`[(40.02,116.34), (42.02,116.34), (42.02,118.34)]` the code returns
`xmin = 42.02`, not the true minimum `40.02`: when a point raises the
running max, the `else if` skips the min update, so a run of weakly
increasing x-coordinates never sets `xmin` away from its seed or from a
stale value. -/
theorem get_bbox_xmin_wrong_on_doc_example :
    get_bbox [⟨Coord.fin 40.02, Coord.fin 116.34⟩,
              ⟨Coord.fin 42.02, Coord.fin 116.34⟩,
              ⟨Coord.fin 42.02, Coord.fin 118.34⟩] =
      some ⟨Coord.fin 42.02, Coord.fin 42.02, Coord.fin 116.34, Coord.fin 118.34⟩ := by
  norm_num [get_bbox, bboxLoop, stepMinMax, Coord.blt]

/-- Claim C2 (code bug witness): on the finite two-point input
`[(1,0), (2,0)]` the code leaves `xmin` at its seed `+∞`, so the returned
box violates `xmin ≤ xmax` (here `xmin = +∞`, `xmax = 2`). -/
theorem get_bbox_invariant_violated :
    get_bbox [⟨Coord.fin 1, Coord.fin 0⟩, ⟨Coord.fin 2, Coord.fin 0⟩] =
      some ⟨Coord.posInf, Coord.fin 2, Coord.fin 0, Coord.fin 0⟩ ∧
    Coord.ble Coord.posInf (Coord.fin 2) = false := by
  decide

/-- Claim C3: `get_bbox` returns `none` exactly on the empty sequence; every
non-empty sequence yields `some` box. -/
theorem get_bbox_none_iff_empty (l : LineString) :
    get_bbox l = none ↔ l = [] := by
  match l with
  | [] => simp [get_bbox]
  | [p] => simp [get_bbox]
  | p :: q :: rest => simp [get_bbox]

/-- Claim C4: a single-point sequence yields the degenerate box
`xmin = xmax = p.x`, `ymin = ymax = p.y`; in particular for
`p = (40.02, 116.34)`. -/
theorem get_bbox_single_point :
    (∀ p : Point, get_bbox [p] = some ⟨p.x, p.x, p.y, p.y⟩) ∧
      get_bbox [⟨Coord.fin 40.02, Coord.fin 116.34⟩] =
        some ⟨Coord.fin 40.02, Coord.fin 40.02, Coord.fin 116.34, Coord.fin 116.34⟩ :=
  ⟨fun _ => rfl, rfl⟩

/-- Claim C5 (code bug witness): the result is not permutation-invariant.
`[(1,0), (2,0)]` and its permutation `[(2,0), (1,0)]` give different boxes
(`xmin = +∞` for the first, `xmin = 1` for the second). -/
theorem get_bbox_not_order_invariant :
    List.Perm [Point.mk (Coord.fin 1) (Coord.fin 0), Point.mk (Coord.fin 2) (Coord.fin 0)]
      [Point.mk (Coord.fin 2) (Coord.fin 0), Point.mk (Coord.fin 1) (Coord.fin 0)] ∧
    get_bbox [Point.mk (Coord.fin 1) (Coord.fin 0), Point.mk (Coord.fin 2) (Coord.fin 0)] ≠
      get_bbox [Point.mk (Coord.fin 2) (Coord.fin 0), Point.mk (Coord.fin 1) (Coord.fin 0)] :=
  ⟨List.Perm.swap _ _ _, by decide⟩

/-- Claim C6: for the four points `(1,1), (2,-2), (-3,-3), (-4,4)` the result
is the box with `xmin = -4`, `xmax = 2`, `ymin = -3`, `ymax = 4`. -/
theorem get_bbox_four_point_example :
    get_bbox [⟨Coord.fin 1, Coord.fin 1⟩, ⟨Coord.fin 2, Coord.fin (-2)⟩,
              ⟨Coord.fin (-3), Coord.fin (-3)⟩, ⟨Coord.fin (-4), Coord.fin 4⟩] =
      some ⟨Coord.fin (-4), Coord.fin 2, Coord.fin (-3), Coord.fin 4⟩ := by
  decide

/-- Claim C7 (code bug witness): idempotence fails. The finite input
`[(1,0), (2,0)]` yields the box `(xmin = +∞, xmax = 2, ymin = 0, ymax = 0)`,
and the bounding box of that box's four corner points is
`(xmin = 2, xmax = +∞, ymin = 0, ymax = 0)`, a different box. -/
theorem get_bbox_not_idempotent :
    get_bbox [⟨Coord.fin 1, Coord.fin 0⟩, ⟨Coord.fin 2, Coord.fin 0⟩] =
      some ⟨Coord.posInf, Coord.fin 2, Coord.fin 0, Coord.fin 0⟩ ∧
    get_bbox (corners ⟨Coord.posInf, Coord.fin 2, Coord.fin 0, Coord.fin 0⟩) =
      some ⟨Coord.fin 2, Coord.posInf, Coord.fin 0, Coord.fin 0⟩ ∧
    (Bbox.mk (Coord.fin 2) Coord.posInf (Coord.fin 0) (Coord.fin 0) ≠
      Bbox.mk Coord.posInf (Coord.fin 2) (Coord.fin 0) (Coord.fin 0)) := by
  decide

/-- Claim C8: translation equivariance. Translating every point of a
non-empty finite-coordinate sequence by `(dx, dy)` translates every field of
the resulting box by the same offset (exact rational arithmetic). -/
theorem get_bbox_translation_equivariant
    (l : LineString) (dx dy : ℚ) (b : Bbox)
    (hne : l ≠ []) (hfin : allFinite l)
    (hb : get_bbox l = some b) :
    get_bbox (l.map (translatePt dx dy)) = some (b.translate dx dy) := by
  match l with
  | [] => exact absurd rfl hne
  | [p] =>
    rw [show get_bbox [p] = some ⟨p.x, p.x, p.y, p.y⟩ from rfl] at hb
    injection hb with h
    subst h
    rfl
  | p :: q :: rest =>
    rw [show get_bbox (p :: q :: rest) =
          some ⟨(bboxLoop Coord.negInf Coord.posInf Coord.negInf Coord.posInf
                    (p :: q :: rest)).2.1,
                (bboxLoop Coord.negInf Coord.posInf Coord.negInf Coord.posInf
                    (p :: q :: rest)).1,
                (bboxLoop Coord.negInf Coord.posInf Coord.negInf Coord.posInf
                    (p :: q :: rest)).2.2.2,
                (bboxLoop Coord.negInf Coord.posInf Coord.negInf Coord.posInf
                    (p :: q :: rest)).2.2.1⟩ from rfl] at hb
    injection hb with h
    subst h
    have hsh := bboxLoop_shift dx dy (p :: q :: rest)
      Coord.negInf Coord.posInf Coord.negInf Coord.posInf
    simp only [Coord.shift] at hsh
    have hmap : (p :: q :: rest).map (translatePt dx dy) =
        translatePt dx dy p :: translatePt dx dy q :: rest.map (translatePt dx dy) := rfl
    rw [show get_bbox ((p :: q :: rest).map (translatePt dx dy)) =
          some ⟨(bboxLoop Coord.negInf Coord.posInf Coord.negInf Coord.posInf
                    ((p :: q :: rest).map (translatePt dx dy))).2.1,
                (bboxLoop Coord.negInf Coord.posInf Coord.negInf Coord.posInf
                    ((p :: q :: rest).map (translatePt dx dy))).1,
                (bboxLoop Coord.negInf Coord.posInf Coord.negInf Coord.posInf
                    ((p :: q :: rest).map (translatePt dx dy))).2.2.2,
                (bboxLoop Coord.negInf Coord.posInf Coord.negInf Coord.posInf
                    ((p :: q :: rest).map (translatePt dx dy))).2.2.1⟩ from rfl,
        hsh]
    rfl

/-- Claim C8, witness: the theorem applied to the concrete sequence
`[(1,0), (2,0)]` with offset `(5, 7)`. -/
theorem get_bbox_translation_equivariant_witness :
    get_bbox ([Point.mk (Coord.fin 1) (Coord.fin 0),
               Point.mk (Coord.fin 2) (Coord.fin 0)].map (translatePt 5 7)) =
      some ((Bbox.mk Coord.posInf (Coord.fin 2) (Coord.fin 0) (Coord.fin 0)).translate 5 7) :=
  get_bbox_translation_equivariant _ 5 7 _ (by decide) (by decide) (by decide)

/-- Claim C9: `get_bbox` is a total function of its input, and its loop is a
single linear (left-fold) pass over the sequence. -/
theorem get_bbox_total_single_pass (l : LineString) :
    (∃ r : Option Bbox, get_bbox l = r) ∧
      ∀ xa xi ya yi : Coord,
        bboxLoop xa xi ya yi l = l.foldl bboxStep (xa, xi, ya, yi) := by
  refine ⟨⟨get_bbox l, rfl⟩, ?_⟩
  induction l with
  | nil => intro xa xi ya yi; rfl
  | cons p ps ih =>
    intro xa xi ya yi
    rw [bboxLoop_cons, List.foldl_cons, ih]
    rfl

/-- Claim C10: on every non-empty finite-coordinate sequence the returned
box's `xmax` is the maximum of all x-coordinates and its `ymax` is the
maximum of all y-coordinates. -/
theorem get_bbox_max_fields_correct
    (p : Point) (ps : List Point) (b : Bbox)
    (hfin : allFinite (p :: ps))
    (hb : get_bbox (p :: ps) = some b) :
    b.xmax = maxCoord Point.x p ps ∧ b.ymax = maxCoord Point.y p ps := by
  match ps with
  | [] =>
    rw [show get_bbox [p] = some ⟨p.x, p.x, p.y, p.y⟩ from rfl] at hb
    injection hb with h
    subst h
    exact ⟨rfl, rfl⟩
  | q :: rest =>
    rw [show get_bbox (p :: q :: rest) =
          some ⟨(bboxLoop Coord.negInf Coord.posInf Coord.negInf Coord.posInf
                    (p :: q :: rest)).2.1,
                (bboxLoop Coord.negInf Coord.posInf Coord.negInf Coord.posInf
                    (p :: q :: rest)).1,
                (bboxLoop Coord.negInf Coord.posInf Coord.negInf Coord.posInf
                    (p :: q :: rest)).2.2.2,
                (bboxLoop Coord.negInf Coord.posInf Coord.negInf Coord.posInf
                    (p :: q :: rest)).2.2.1⟩ from rfl] at hb
    injection hb with h
    subst h
    constructor
    · show (bboxLoop Coord.negInf Coord.posInf Coord.negInf Coord.posInf
          (p :: q :: rest)).1 = maxCoord Point.x p (q :: rest)
      rw [bboxLoop_fst, List.foldl_cons, maxE_negInf]
      rfl
    · show (bboxLoop Coord.negInf Coord.posInf Coord.negInf Coord.posInf
          (p :: q :: rest)).2.2.1 = maxCoord Point.y p (q :: rest)
      rw [bboxLoop_ymax, List.foldl_cons, maxE_negInf]
      rfl

/-- Claim C10, witness: the theorem applied to the concrete sequence
`[(1,0), (2,0)]`, whose box has `xmax = 2` and `ymax = 0`. -/
theorem get_bbox_max_fields_correct_witness :
    (Bbox.mk Coord.posInf (Coord.fin 2) (Coord.fin 0) (Coord.fin 0)).xmax =
        maxCoord Point.x ⟨Coord.fin 1, Coord.fin 0⟩ [⟨Coord.fin 2, Coord.fin 0⟩] ∧
      (Bbox.mk Coord.posInf (Coord.fin 2) (Coord.fin 0) (Coord.fin 0)).ymax =
        maxCoord Point.y ⟨Coord.fin 1, Coord.fin 0⟩ [⟨Coord.fin 2, Coord.fin 0⟩] :=
  get_bbox_max_fields_correct ⟨Coord.fin 1, Coord.fin 0⟩ [⟨Coord.fin 2, Coord.fin 0⟩]
    ⟨Coord.posInf, Coord.fin 2, Coord.fin 0, Coord.fin 0⟩ (by decide) (by decide)
